import Mathlib

/-!
Verification development for the IM-SYAU-Core presence-tracking engine.

The definitions below are a shallow embedding of the JavaScript sources:
the shared bluetooth utilities (decodeUnicode, parseDetectionTime,
isDetectionStale, findBeacon, getValidReceivers) and the plugin
(handleBLEData, loadData, autoClearOldData).  JavaScript objects used as
string-keyed maps are embedded as association lists where property
assignment replaces an existing key in place and appends a new key at the
end, matching JS property-insertion order.  JavaScript number semantics
relevant to the code (NaN propagation through subtraction and the
comparison operators returning false on NaN) are embedded by the JSNum
type.  Truthiness tests on optional strings and integers mirror the JS
falsy values undefined, the empty string and zero.
-/

namespace IMSYAU

/-- JS number restricted to the values the tracked code produces: an integer
or NaN.  Comparisons involving NaN are false; subtraction propagates NaN. -/
inductive JSNum where
  | num : Int → JSNum
  | nan : JSNum
deriving DecidableEq, Repr

/-- JS subtraction: NaN propagates. -/
def jsSub : JSNum → JSNum → JSNum
  | .num x, .num y => .num (x - y)
  | _, _ => .nan

/-- JS strict greater-than: false whenever an operand is NaN. -/
def jsGtB : JSNum → JSNum → Bool
  | .num x, .num y => decide (y < x)
  | _, _ => false

/-- Truthiness of an optional string: undefined and the empty string are falsy. -/
def truthyS : Option String → Bool
  | some s => !(s == "")
  | none => false

/-- Truthiness of an optional integer: undefined and zero are falsy. -/
def truthyI : Option Int → Bool
  | some n => !(n == 0)
  | none => false

/-- JS `a || dflt` on an optional string operand with a string default. -/
def jsOrS (a : Option String) (dflt : String) : String :=
  match a with
  | some s => if s == "" then dflt else s
  | none => dflt

/-- JS `a || b` on two optional string operands. -/
def jsOrOptS (a b : Option String) : Option String :=
  if truthyS a then a else b

/-- JS `a || dflt` on an optional integer operand with an integer default. -/
def jsOrI (a : Option Int) (dflt : Int) : Int :=
  match a with
  | some n => if n == 0 then dflt else n
  | none => dflt

/-- Lookup in a JS-object association list (first occurrence of the key). -/
def alookup {α : Type} (k : String) : List (String × α) → Option α
  | [] => none
  | (k', v) :: rest => if k' = k then some v else alookup k rest

/-- JS property assignment `o[k] = v`: replace the first occurrence of the
key in place, or append the key at the end when absent. -/
def upsert {α : Type} (k : String) (v : α) : List (String × α) → List (String × α)
  | [] => [(k, v)]
  | (k', v') :: rest => if k' = k then (k, v) :: rest else (k', v') :: upsert k v rest

/-- The keys of a JS-object association list, in property order. -/
def akeys {α : Type} (l : List (String × α)) : List String :=
  l.map Prod.fst

/-- Hexadecimal digit value accepted by the decodeUnicode regex
(case-insensitive, per the `i` flag); the branches compare code units
48-57 (decimal digits), 65-70 (A-F) and 97-102 (a-f). -/
def hexDigit? (c : Char) : Option Nat :=
  let u := c.toNat
  if 48 ≤ u ∧ u ≤ 57 then some (u - 48)
  else if 65 ≤ u ∧ u ≤ 70 then some (u - 55)
  else if 97 ≤ u ∧ u ≤ 102 then some (u - 87)
  else none

/-- One decoded escape: the outer regex also matches an uppercase `U`
(the `i` flag), but the inner replace removes only a lowercase `\u`, so an
uppercase match reaches parseInt with a leading backslash and yields NaN,
which String.fromCharCode maps to code unit 0.  Lone-surrogate code units
are not representable as Lean chars and map to the null character. -/
def escChar (u : Char) (code : Nat) : Char :=
  if u = 'u' then Char.ofNat code else Char.ofNat 0

/-- Character-level body of decodeUnicode: scan left to right for
backslash-u plus four hex digits, as the global regex does. -/
def decodeUnicodeChars : List Char → List Char
  | '\\' :: u :: a :: b :: c :: d :: rest =>
    if u = 'u' ∨ u = 'U' then
      match hexDigit? a, hexDigit? b, hexDigit? c, hexDigit? d with
      | some x1, some x2, some x3, some x4 =>
        escChar u (((x1 * 16 + x2) * 16 + x3) * 16 + x4) :: decodeUnicodeChars rest
      | _, _, _, _ => '\\' :: decodeUnicodeChars (u :: a :: b :: c :: d :: rest)
    else '\\' :: decodeUnicodeChars (u :: a :: b :: c :: d :: rest)
  | ch :: rest => ch :: decodeUnicodeChars rest
  | [] => []
termination_by l => l.length

/-- ble-utils decodeUnicode: replace `\uXXXX` escapes with the character. -/
def decodeUnicode (s : String) : String :=
  ⟨decodeUnicodeChars s.data⟩

/-- JS String.prototype.split on a single separator character: every
occurrence splits, empty segments are kept, the result is never empty. -/
def splitChar (sep : Char) : List Char → List (List Char)
  | [] => [[]]
  | x :: xs =>
    if x = sep then [] :: splitChar sep xs
    else
      match splitChar sep xs with
      | h :: t => (x :: h) :: t
      | [] => [[x]]

/-- Whitespace trimmed by JS Number conversion (common subset). -/
def isWsChar (c : Char) : Bool :=
  c == ' ' || c == '\t' || c == '\n' || c == '\r'

/-- Trim leading and trailing whitespace from a character list. -/
def trimChars (l : List Char) : List Char :=
  ((l.dropWhile isWsChar).reverse.dropWhile isWsChar).reverse

/-- Accumulating worker for digitsVal. -/
def digitsValGo : List Char → Int → Option Int
  | [], acc => some acc
  | c :: rest, acc =>
    if c.isDigit then digitsValGo rest (acc * 10 + ((c.toNat : Int) - 48))
    else none

/-- Value of an all-decimal-digit character list; none when empty or when a
non-digit appears. -/
def digitsVal : List Char → Option Int
  | [] => none
  | l => digitsValGo l 0

/-- JS Number() on a string, restricted to the decimal-integer literals the
tracked date strings contain: whitespace is trimmed, the empty string is 0,
an optional sign precedes decimal digits, anything else is NaN. -/
def jsNumberC (l : List Char) : JSNum :=
  let t := trimChars l
  match t with
  | [] => .num 0
  | '-' :: rest =>
    match digitsVal rest with
    | some n => .num (-n)
    | none => .nan
  | '+' :: rest =>
    match digitsVal rest with
    | some n => .num n
    | none => .nan
  | _ =>
    match digitsVal t with
    | some n => .num n
    | none => .nan

/-- Element i of a JS array of numbers: a missing element is undefined and
behaves as NaN once it reaches date arithmetic. -/
def nthNum (l : List JSNum) (i : Nat) : JSNum :=
  (l.get? i).getD .nan

/-- Days from the civil epoch 1970-01-01 for a date with month in 1..12
(Euclidean division coincides with floor division for the positive
divisors used here). -/
def daysFromCivil (y m d : Int) : Int :=
  let y' := if m ≤ 2 then y - 1 else y
  let era := y' / 400
  let yoe := y' - era * 400
  let mp := (m + 9) % 12
  let doy := (153 * mp + 2) / 5 + d - 1
  let doe := yoe * 365 + yoe / 4 - yoe / 100 + doy
  era * 146097 + doe - 719468

/-- JS `new Date(y, mo, d, h, mi, s).getTime()` for integer arguments with
the month zero-based and rolled over as MakeDay prescribes; any NaN
argument gives an invalid date whose time value is NaN.  The embedding
fixes the local timezone offset at zero (the format carries no offset). -/
def mkDateMs : JSNum → JSNum → JSNum → JSNum → JSNum → JSNum → JSNum
  | .num y, .num mo, .num d, .num h, .num mi, .num s =>
    let ym := y + mo / 12
    let mn := mo % 12
    let days := daysFromCivil ym (mn + 1) 1 + (d - 1)
    .num (days * 86400000 + h * 3600000 + mi * 60000 + s * 1000)
  | _, _, _, _, _, _ => .nan

namespace Utils

/-- A detection record as the shared utilities read it from ble_data.json:
every field is optional, mirroring the duck-typed JS object. -/
structure Detection where
  update_time : Option Int
  last_update : Option String
  rssi : Option Int
  online : Option Bool
  receiver_name : Option String
  receiver : Option String
deriving DecidableEq, Repr

/-- The secondary date-string parse path of parseDetectionTime: split on a
space; a missing time part makes the later split throw, which the catch
turns into null; otherwise the date and time components feed new Date,
whose time value is NaN when any component is not a number. -/
def parseLastUpdate (s : String) : Option JSNum :=
  match splitChar ' ' s.data with
  | datePart :: timePart :: _ =>
    let dn := (splitChar '/' datePart).map jsNumberC
    let tn := (splitChar ':' timePart).map jsNumberC
    some (mkDateMs (nthNum dn 0) (jsSub (nthNum dn 1) (.num 1)) (nthNum dn 2)
      (nthNum tn 0) (nthNum tn 1) (nthNum tn 2))
  | _ => none

/-- ble-utils parseDetectionTime: a null detection and a missing secondary
string give null; a truthy numeric update_time is returned directly;
otherwise the date string is parsed. -/
def parseDetectionTime : Option Detection → Option JSNum
  | none => none
  | some d =>
    if truthyI d.update_time then d.update_time.map JSNum.num
    else
      match d.last_update with
      | none => none
      | some s => if s == "" then none else parseLastUpdate s

/-- ble-utils isDetectionStale: unresolvable timestamps are stale; a
resolved timestamp is stale when now minus it strictly exceeds the
threshold (a NaN age compares false and so counts as not stale). -/
def isDetectionStale (od : Option Detection) (now threshold : Int) : Bool :=
  match parseDetectionTime od with
  | none => true
  | some t => jsGtB (jsSub (.num now) t) (.num threshold)

/-- A beacon record as the shared utilities read it. -/
structure Beacon where
  name : Option String
  first_seen : Option Int
  detections : List (String × Detection)
deriving DecidableEq, Repr

/-- The ble_data.json root object as the shared utilities read it. -/
structure UData where
  beacons : List (String × Beacon)
deriving DecidableEq, Repr

/-- Scanning worker for findBeacon over the beacon entries. -/
def findBeaconGo : List (String × Beacon) → String → Option (Beacon × String)
  | [], _ => none
  | (mac, b) :: rest, q =>
    if b.name == some q || mac == q then some (b, mac) else findBeaconGo rest q

/-- ble-utils findBeacon: scan the beacons in property order and return the
first entry whose name or mac equals the query. -/
def findBeacon (data : UData) (beaconId : String) : Option (Beacon × String) :=
  findBeaconGo data.beacons beaconId

/-- One element of the getValidReceivers result (the locale-formatted
last_update display string of the source is environment-dependent and
carried by lastUpdateTime here). -/
structure RecvView where
  deviceId : String
  name : Option String
  rssi : Int
  online : Bool
  lastUpdateTime : Int
deriving DecidableEq, Repr

/-- The body of the getValidReceivers loop for one detections entry: skip
an unresolvable timestamp, skip when the age test fails (a NaN timestamp
fails the test), otherwise build the result row with the JS defaults for
missing rssi and online. -/
def freshEntry (now threshold : Int) (p : String × Detection) : Option RecvView :=
  match parseDetectionTime (some p.2) with
  | some (.num t) =>
    if now - t ≤ threshold then
      some ⟨p.1, (jsOrOptS p.2.receiver_name p.2.receiver).map decodeUnicode,
        p.2.rssi.getD (-100), p.2.online.getD false, t⟩
    else none
  | _ => none

/-- The unsorted receiver rows getValidReceivers accumulates, in detections
property order.  A null beacon contributes no rows. -/
def freshDetections (ob : Option Beacon) (now threshold : Int) : List RecvView :=
  (match ob with
   | some b => b.detections
   | none => []).filterMap (freshEntry now threshold)

/-- Stable descending insertion by rssi: the new row goes after every row
of equal or stronger signal, as the stable JS sort with comparator
b.rssi - a.rssi leaves tied rows in their prior order. -/
def insertDesc (x : RecvView) : List RecvView → List RecvView
  | [] => [x]
  | y :: ys => if y.rssi < x.rssi then x :: y :: ys else y :: insertDesc x ys

/-- Left-to-right stable sorting worker. -/
def sortDescGo : List RecvView → List RecvView → List RecvView
  | [], acc => acc
  | x :: xs, acc => sortDescGo xs (insertDesc x acc)

/-- ble-utils getValidReceivers: filter to resolvable, young-enough
detections, then sort descending by rssi with the stable JS sort. -/
def getValidReceivers (ob : Option Beacon) (now threshold : Int) : List RecvView :=
  sortDescGo (freshDetections ob now threshold) []

end Utils

namespace Plugin

/-- The signal-strength field of one observed-object record in a report:
a bare number, a structured value offering optional average and current
readings, or absent. -/
inductive RssiVal where
  | num (n : Int)
  | structured (average current : Option Int)
  | undef
deriving DecidableEq, Repr

/-- A stored signal-strength value: the normalization stores a scalar when
it finds one and otherwise stores the raw field as-is, which for a
structured value with no truthy reading is the structured object itself. -/
inductive RssiStored where
  | num (n : Int)
  | obj (average current : Option Int)
  | undef
deriving DecidableEq, Repr

/-- Whether a stored signal-strength value is a single scalar number. -/
def RssiStored.isScalarB : RssiStored → Bool
  | .num _ => true
  | _ => false

/-- handleBLEData signal normalization: for a structured value take
`average || current || rssi`, where a zero or missing reading is falsy and
the final fallback is the structured object itself. -/
def normalizeRssi : RssiVal → RssiStored
  | .num n => .num n
  | .undef => .undef
  | .structured avg cur =>
    if truthyI avg then .num (avg.getD 0)
    else if truthyI cur then .num (cur.getD 0)
    else .obj avg cur

/-- One observed-object record of an ingested report. -/
structure ReportBeacon where
  mac : Option String
  name : Option String
  rssi : RssiVal
  online : Option Bool
deriving DecidableEq, Repr

/-- One ingested report: the event's device identity, name and type, and
the event_data's batch fields and observed-object list (an absent list
behaves as the empty list through `beacons || []`). -/
structure Report where
  device_id : Option String
  device_name : Option String
  device_type : Option String
  batch : Option Int
  total_batches : Option Int
  beacons : List ReportBeacon
deriving DecidableEq, Repr

/-- A stored detection written by handleBLEData. -/
structure PDetection where
  receiver_name : String
  online : Option Bool
  rssi : RssiStored
  last_seen : Int
  update_time : Int
deriving DecidableEq, Repr

/-- A stored tracked-object record written by handleBLEData. -/
structure PBeacon where
  name : Option String
  first_seen : Int
  detections : List (String × PDetection)
deriving DecidableEq, Repr

/-- A stored receiver record written by handleBLEData. -/
structure DeviceRec where
  name : String
  type : String
  update : Int
  batch : Int
  total_batches : Int
deriving DecidableEq, Repr

/-- The plugin's registry: the devices and beacons maps of ble_data.json. -/
structure PluginData where
  devices : List (String × DeviceRec)
  beacons : List (String × PBeacon)
deriving DecidableEq, Repr

/-- The empty registry. -/
def emptyData : PluginData := ⟨[], []⟩

/-- The object record the loop body starts from: the stored record when
the mac is already known, else a fresh record with first_seen now and the
report's name. -/
def beaconBase (s : PluginData) (now : Int) (b : ReportBeacon) (mac : String) : PBeacon :=
  match alookup mac s.beacons with
  | some r => r
  | none => ⟨b.name, now, []⟩

/-- The name update `if (beacon.name) data.beacons[mac].name = beacon.name`:
a truthy report name overwrites the stored display name. -/
def beaconNamed (b : ReportBeacon) (r : PBeacon) : PBeacon :=
  if truthyS b.name then ⟨b.name, r.first_seen, r.detections⟩ else r

/-- The body of the handleBLEData beacon loop for one observed-object
record: skip a falsy mac; otherwise create the object on first sight with
first_seen now, overwrite its name when the report supplies a truthy one,
and overwrite the detection for this receiver in place. -/
def ingestBeacon (s : PluginData) (did dname : String) (now : Int)
    (b : ReportBeacon) : PluginData :=
  match b.mac with
  | none => s
  | some mac =>
    if mac = "" then s
    else
      let named := beaconNamed b (beaconBase s now b mac)
      let det : PDetection := ⟨dname, b.online, normalizeRssi b.rssi, now, now⟩
      ⟨s.devices, upsert mac ⟨named.name, named.first_seen, upsert did det named.detections⟩ s.beacons⟩

/-- plugin handleBLEData: reject the whole report when the device identity
is falsy or the observed-object list is empty; otherwise upsert the
receiver record with now and fold every observed-object record into the
beacons map. -/
def handleBLEData (data : PluginData) (e : Report) (now : Int) : PluginData :=
  match e.device_id with
  | none => data
  | some did =>
    if did = "" ∨ e.beacons = [] then data
    else
      let dname := jsOrS e.device_name did
      let dev : DeviceRec :=
        ⟨dname, jsOrS e.device_type "ESP32", now, jsOrI e.batch 1, jsOrI e.total_batches 1⟩
      e.beacons.foldl (fun s b => ingestBeacon s did dname now b)
        ⟨upsert did dev data.devices, data.beacons⟩

/-- The Reaper's long-retention threshold: thirty minutes in milliseconds. -/
def halfHour : Int := 30 * 60 * 1000

/-- Remove the detections of one object whose age exceeds the retention
threshold (the loop keeps a detection exactly when its age does not exceed
it). -/
def pruneBeacon (now : Int) (b : PBeacon) : PBeacon :=
  ⟨b.name, b.first_seen, b.detections.filter (fun q => decide (now - q.2.update_time ≤ halfHour))⟩

/-- plugin autoClearOldData: drop receivers whose last report aged out,
prune each object's detections at the same threshold, and drop every
object with no detection left (hasRecentDetection stays false exactly when
the pruned detections map is empty). -/
def autoClearOldData (data : PluginData) (now : Int) : PluginData :=
  ⟨data.devices.filter (fun p => decide (now - p.2.update ≤ halfHour)),
   (data.beacons.map (fun p => (p.1, pruneBeacon now p.2))).filter
     (fun p => !p.2.detections.isEmpty)⟩

/-- A JSON value as JSON.parse returns it (numbers restricted to the
integers the tracked data contains). -/
inductive JVal where
  | str (s : String)
  | num (n : Int)
  | bool (b : Bool)
  | null
  | arr (elems : List JVal)
  | obj (fields : List (String × JVal))

mutual

/-- plugin decodeObject: recursively decode every string in a JSON value
through decodeUnicode; object keys are kept as stored. -/
def decodeJVal : JVal → JVal
  | .str s => .str (decodeUnicode s)
  | .arr xs => .arr (decodeJList xs)
  | .obj fs => .obj (decodeJFields fs)
  | .num n => .num n
  | .bool b => .bool b
  | .null => .null

/-- decodeObject over the elements of a JSON array. -/
def decodeJList : List JVal → List JVal
  | [] => []
  | x :: xs => decodeJVal x :: decodeJList xs

/-- decodeObject over the values of a JSON object. -/
def decodeJFields : List (String × JVal) → List (String × JVal)
  | [] => []
  | (k, v) :: fs => (k, decodeJVal v) :: decodeJFields fs

end

/-- JS truthiness of a property read from a JSON object. -/
def truthyJ : Option JVal → Bool
  | none => false
  | some .null => false
  | some (.bool b) => b
  | some (.num n) => !(n == 0)
  | some (.str s) => !(s == "")
  | some (.arr _) => true
  | some (.obj _) => true

/-- The default fill `if (!o.k) o.k = ...` on a decoded document: assign
an empty object to the property when it is falsy. -/
def ensureField (k : String) (fs : List (String × JVal)) : List (String × JVal) :=
  if truthyJ (alookup k fs) then fs else upsert k (.obj []) fs

/-- The empty registry document. -/
def emptyRegistryJ : JVal :=
  .obj [("devices", .obj []), ("beacons", .obj [])]

/-- plugin loadData.  The file read plus JSON.parse is the fallible step
and is embedded as an Except argument; any thrown error is caught and
yields the empty registry.  On success the document is recursively
decoded and the devices and beacons properties are defaulted when falsy.
A decoded document that is not an object makes the strict-mode property
assignment (or the property read on null) throw inside the try, which the
catch also turns into the empty registry; for an array document every
consumer observes the same empty devices and beacons maps, which this
embedding represents by the empty registry as well. -/
def loadData (doc : Except String JVal) : JVal :=
  match doc with
  | .error _ => emptyRegistryJ
  | .ok v =>
    match decodeJVal v with
    | .obj fs => .obj (ensureField "beacons" (ensureField "devices" fs))
    | _ => emptyRegistryJ

end Plugin

/-! ## Concrete inputs used to evaluate the code on specific data -/

/-- A detection whose date string splits into a date and a time part but
whose date components are not numbers: real JS produces an invalid date
with a NaN time value here. -/
def badDetection : Utils.Detection := ⟨none, some "a/b/c 1:2:3", none, none, none, none⟩

/-- A registry where an earlier-iterated object's name equals a later
object's address. -/
def c4data : Utils.UData := ⟨[("AA", ⟨some "BB", none, []⟩), ("BB", ⟨some "X", none, []⟩)]⟩

/-- A report with a present receiver identity and an empty object list. -/
def c3report : Plugin.Report := ⟨some "R1", none, none, none, none, []⟩

/-- A report with a present receiver identity and one observed object. -/
def c3reportB : Plugin.Report :=
  ⟨some "R1", none, none, none, none, [⟨some "M", none, .num (-40), some true⟩]⟩

/-- A report whose object carries a structured signal strength offering
neither a truthy average nor a truthy current reading. -/
def c5report : Plugin.Report :=
  ⟨some "R", none, none, none, none, [⟨some "M", none, .structured none none, some true⟩]⟩

/-- A report used to instantiate the ingestion theorems. -/
def c1report : Plugin.Report :=
  ⟨some "R1", some "N", none, none, none, [⟨some "M", some "B1", .num (-50), some true⟩]⟩

/-- A detection with a numeric observation timestamp. -/
def c6det : Utils.Detection := ⟨some 1000, none, some (-50), some true, some "N", none⟩

/-- An object observed once, with no recorded signal strength and no
liveness flag. -/
def c10beacon : Utils.Beacon :=
  ⟨some "B", none, [("r9", ⟨some 500, none, none, none, none, none⟩)]⟩

/-- An object with one detection past the retention threshold and one
within it. -/
def c8beacon : Plugin.PBeacon :=
  ⟨some "B", 0, [("R1", ⟨"n", none, .num 1, 0, 0⟩), ("R2", ⟨"n", none, .num 2, 100, 2000000⟩)]⟩

/-- A registry holding an aged-out receiver and the mixed-age object. -/
def c8data : Plugin.PluginData :=
  ⟨[("R1", ⟨"n", "t", 0, 1, 1⟩)], [("M1", c8beacon)]⟩

/-! ## Association-list lemmas -/

theorem alookup_cons_eq {α : Type} (k : String) (v : α) (l : List (String × α)) :
    alookup k ((k, v) :: l) = some v := by
  simp [alookup]

theorem alookup_cons_ne {α : Type} {k k' : String} (h : k' ≠ k) (v : α)
    (l : List (String × α)) : alookup k ((k', v) :: l) = alookup k l := by
  simp [alookup, h]

theorem upsert_cons_eq {α : Type} (k : String) (v v' : α) (l : List (String × α)) :
    upsert k v ((k, v') :: l) = (k, v) :: l := by
  simp [upsert]

theorem upsert_cons_ne {α : Type} {k' k : String} (h : k' ≠ k) (v v' : α)
    (l : List (String × α)) : upsert k v ((k', v') :: l) = (k', v') :: upsert k v l := by
  simp [upsert, h]

theorem akeys_nil {α : Type} : akeys ([] : List (String × α)) = [] := rfl

theorem akeys_cons {α : Type} (p : String × α) (l : List (String × α)) :
    akeys (p :: l) = p.1 :: akeys l := rfl

theorem alookup_upsert_self {α : Type} (k : String) (v : α) (l : List (String × α)) :
    alookup k (upsert k v l) = some v := by
  induction l with
  | nil => simp [upsert, alookup]
  | cons p rest ih =>
    obtain ⟨k', v'⟩ := p
    by_cases h : k' = k
    · subst h
      rw [upsert_cons_eq, alookup_cons_eq]
    · rw [upsert_cons_ne h, alookup_cons_ne h, ih]

theorem alookup_upsert_ne {α : Type} {k' k : String} (v : α) (l : List (String × α))
    (h : k' ≠ k) : alookup k' (upsert k v l) = alookup k' l := by
  induction l with
  | nil => simp [upsert, alookup, Ne.symm h]
  | cons p rest ih =>
    obtain ⟨k₀, v₀⟩ := p
    by_cases hk : k₀ = k
    · subst hk
      rw [upsert_cons_eq, alookup_cons_ne (Ne.symm h), alookup_cons_ne (Ne.symm h)]
    · rw [upsert_cons_ne hk]
      by_cases hk' : k₀ = k'
      · subst hk'
        rw [alookup_cons_eq, alookup_cons_eq]
      · rw [alookup_cons_ne hk', alookup_cons_ne hk', ih]

theorem mem_upsert {α : Type} {p : String × α} {k : String} {v : α}
    {l : List (String × α)} (h : p ∈ upsert k v l) : p = (k, v) ∨ p ∈ l := by
  induction l with
  | nil => simpa [upsert] using h
  | cons q rest ih =>
    obtain ⟨k', v'⟩ := q
    by_cases hk : k' = k
    · subst hk
      rw [upsert_cons_eq] at h
      rcases List.mem_cons.mp h with h1 | h1
      · exact Or.inl h1
      · exact Or.inr (List.mem_cons_of_mem _ h1)
    · rw [upsert_cons_ne hk] at h
      rcases List.mem_cons.mp h with h1 | h1
      · exact Or.inr (by simp [h1])
      · rcases ih h1 with h2 | h2
        · exact Or.inl h2
        · exact Or.inr (List.mem_cons_of_mem _ h2)

theorem akeys_upsert_mem {α : Type} {k : String} (v : α) {l : List (String × α)}
    (h : k ∈ akeys l) : akeys (upsert k v l) = akeys l := by
  induction l with
  | nil => simp [akeys] at h
  | cons p rest ih =>
    obtain ⟨k', v'⟩ := p
    by_cases hk : k' = k
    · subst hk
      rw [upsert_cons_eq, akeys_cons, akeys_cons]
    · rw [akeys_cons, List.mem_cons] at h
      rcases h with h | h
      · exact absurd h.symm hk
      · rw [upsert_cons_ne hk, akeys_cons, akeys_cons, ih h]

theorem akeys_upsert_not_mem {α : Type} {k : String} (v : α) {l : List (String × α)}
    (h : k ∉ akeys l) : akeys (upsert k v l) = akeys l ++ [k] := by
  induction l with
  | nil => simp [upsert, akeys]
  | cons p rest ih =>
    obtain ⟨k', v'⟩ := p
    rw [akeys_cons, List.mem_cons] at h
    push_neg at h
    rw [upsert_cons_ne (fun he => h.1 he.symm), akeys_cons, akeys_cons, ih h.2,
      List.cons_append]

theorem nodup_akeys_upsert {α : Type} {k : String} (v : α) {l : List (String × α)}
    (h : (akeys l).Nodup) : (akeys (upsert k v l)).Nodup := by
  by_cases hm : k ∈ akeys l
  · rw [akeys_upsert_mem v hm]; exact h
  · rw [akeys_upsert_not_mem v hm]
    refine List.Nodup.append h (List.nodup_singleton k) ?_
    intro a ha hka
    rw [List.mem_singleton] at hka
    exact hm (hka ▸ ha)

theorem alookup_mem {α : Type} {k : String} {v : α} {l : List (String × α)}
    (h : alookup k l = some v) : (k, v) ∈ l := by
  induction l with
  | nil => simp [alookup] at h
  | cons p rest ih =>
    obtain ⟨k', v'⟩ := p
    by_cases hk : k' = k
    · subst hk
      rw [alookup_cons_eq, Option.some.injEq] at h
      subst h
      exact List.mem_cons_self _ _
    · rw [alookup_cons_ne hk] at h
      exact List.mem_cons_of_mem _ (ih h)

theorem mem_akeys_of_alookup {α : Type} {k : String} {v : α} {l : List (String × α)}
    (h : alookup k l = some v) : k ∈ akeys l := by
  have := alookup_mem h
  simpa [akeys] using List.mem_map_of_mem Prod.fst this

/-! ## Stable-sort lemmas for getValidReceivers -/

namespace Utils

/-- Descending signal order between two result rows. -/
def Rge (a b : RecvView) : Prop := b.rssi ≤ a.rssi

theorem mem_insertDesc {z x : RecvView} {l : List RecvView} :
    z ∈ insertDesc x l ↔ z = x ∨ z ∈ l := by
  induction l with
  | nil => simp [insertDesc]
  | cons y ys ih =>
    by_cases h : y.rssi < x.rssi
    · simp [insertDesc, h]
    · simp only [insertDesc, if_neg h, List.mem_cons, ih]
      tauto

theorem perm_insertDesc (x : RecvView) (l : List RecvView) :
    (insertDesc x l).Perm (x :: l) := by
  induction l with
  | nil => simp [insertDesc]
  | cons y ys ih =>
    by_cases h : y.rssi < x.rssi
    · simp [insertDesc, h]
    · rw [insertDesc, if_neg h]
      exact (ih.cons y).trans (List.Perm.swap x y ys)

theorem pairwise_insertDesc {x : RecvView} {l : List RecvView}
    (h : l.Pairwise Rge) : (insertDesc x l).Pairwise Rge := by
  induction l with
  | nil => simp [insertDesc, List.Pairwise]
  | cons y ys ih =>
    rw [List.pairwise_cons] at h
    by_cases hc : y.rssi < x.rssi
    · rw [insertDesc, if_pos hc, List.pairwise_cons]
      constructor
      · intro z hz
        rcases List.mem_cons.mp hz with hz | hz
        · exact hz ▸ le_of_lt hc
        · exact le_trans (h.1 z hz) (le_of_lt hc)
      · rw [List.pairwise_cons]
        exact h
    · rw [insertDesc, if_neg hc, List.pairwise_cons]
      refine ⟨?_, ih h.2⟩
      intro z hz
      rcases mem_insertDesc.mp hz with hz | hz
      · exact hz ▸ le_of_not_lt hc
      · exact h.1 z hz

theorem filter_of_head_lt {r : Int} {y : RecvView} {ys : List RecvView}
    (h : (y :: ys).Pairwise Rge) (hy : y.rssi < r) :
    (y :: ys).filter (fun v => v.rssi == r) = [] := by
  rw [List.filter_eq_nil_iff]
  intro a ha
  rcases List.mem_cons.mp ha with ha | ha
  · subst ha
    simpa using ne_of_lt hy
  · rw [List.pairwise_cons] at h
    have : a.rssi ≤ y.rssi := h.1 a ha
    simpa using ne_of_lt (lt_of_le_of_lt this hy)

theorem filter_insertDesc {x : RecvView} {l : List RecvView} (r : Int)
    (h : l.Pairwise Rge) :
    (insertDesc x l).filter (fun v => v.rssi == r) =
      l.filter (fun v => v.rssi == r) ++ (if x.rssi == r then [x] else []) := by
  induction l with
  | nil => simp [insertDesc, List.filter_cons]
  | cons y ys ih =>
    rw [List.pairwise_cons] at h
    by_cases hc : y.rssi < x.rssi
    · rw [insertDesc, if_pos hc]
      by_cases hr : x.rssi = r
      · have hnil : (y :: ys).filter (fun v => v.rssi == r) = [] :=
          filter_of_head_lt (List.pairwise_cons.mpr h) (hr ▸ hc)
        simp [List.filter_cons, hnil, hr]
      · have hxr : (x.rssi == r) = false := by simpa using hr
        simp [List.filter_cons, hxr]
    · rw [insertDesc, if_neg hc]
      rw [List.filter_cons, List.filter_cons]
      by_cases hy : y.rssi = r
      · simp only [hy, beq_self_eq_true, if_pos]
        rw [ih h.2, List.cons_append]
      · have hyr : (y.rssi == r) = false := by simpa using hy
        simp only [hyr, Bool.false_eq_true, if_neg, not_false_iff]
        exact ih h.2

theorem perm_sortDescGo (l acc : List RecvView) :
    (sortDescGo l acc).Perm (acc ++ l) := by
  induction l generalizing acc with
  | nil => simp [sortDescGo]
  | cons x xs ih =>
    rw [sortDescGo]
    refine (ih (insertDesc x acc)).trans ?_
    refine (List.Perm.append_right xs (perm_insertDesc x acc)).trans ?_
    exact List.perm_middle.symm

theorem pairwise_sortDescGo {acc : List RecvView} (l : List RecvView)
    (h : acc.Pairwise Rge) : (sortDescGo l acc).Pairwise Rge := by
  induction l generalizing acc with
  | nil => exact h
  | cons x xs ih =>
    rw [sortDescGo]
    exact ih (pairwise_insertDesc h)

theorem filter_sortDescGo {acc : List RecvView} (l : List RecvView) (r : Int)
    (h : acc.Pairwise Rge) :
    (sortDescGo l acc).filter (fun v => v.rssi == r) =
      acc.filter (fun v => v.rssi == r) ++ l.filter (fun v => v.rssi == r) := by
  induction l generalizing acc with
  | nil => simp [sortDescGo]
  | cons x xs ih =>
    rw [sortDescGo, ih (pairwise_insertDesc h), filter_insertDesc r h,
      List.filter_cons, List.append_assoc]
    by_cases hx : x.rssi = r
    · simp [hx]
    · have hxr : (x.rssi == r) = false := by simpa using hx
      simp [hxr]

end Utils

/-! ## Ingestion lemmas for handleBLEData -/

namespace Plugin

/-- The invariant of claim C1: the beacons map has no duplicate keys and
every object's detections map has at most one entry per receiver. -/
def DetectionsUnique (s : PluginData) : Prop :=
  (akeys s.beacons).Nodup ∧ ∀ p ∈ s.beacons, (akeys p.2.detections).Nodup

/-- The pair (mac, did) holds a detection stamped ts. -/
def PairFresh (did : String) (ts : Int) (bs : List (String × PBeacon)) (mac : String) : Prop :=
  ∃ r det, alookup mac bs = some r ∧ alookup did r.detections = some det ∧
    det.update_time = ts ∧ det.last_seen = ts

/-- The pair (mac, did) is present in the registry. -/
def PairPresent (did : String) (bs : List (String × PBeacon)) (mac : String) : Prop :=
  ∃ r, alookup mac bs = some r ∧ did ∈ akeys r.detections

/-- The per-object key lists of the beacons map, in property order. -/
def detShape (bs : List (String × PBeacon)) : List (String × List String) :=
  bs.map (fun p => (p.1, akeys p.2.detections))

theorem detShape_cons (p : String × PBeacon) (l : List (String × PBeacon)) :
    detShape (p :: l) = (p.1, akeys p.2.detections) :: detShape l := rfl

theorem detectionsUnique_empty : DetectionsUnique emptyData := by
  constructor <;> simp [emptyData, akeys]

theorem beaconNamed_detections (b : ReportBeacon) (r : PBeacon) :
    (beaconNamed b r).detections = r.detections := by
  by_cases h : truthyS b.name
  · simp [beaconNamed, h]
  · simp [beaconNamed, h]

theorem ingestBeacon_eq {b : ReportBeacon} {mac : String} (s : PluginData)
    (did dname : String) (now : Int) (hm : b.mac = some mac) (he : ¬mac = "") :
    ingestBeacon s did dname now b =
      ⟨s.devices,
       upsert mac
         ⟨(beaconNamed b (beaconBase s now b mac)).name,
          (beaconNamed b (beaconBase s now b mac)).first_seen,
          upsert did ⟨dname, b.online, normalizeRssi b.rssi, now, now⟩
            (beaconNamed b (beaconBase s now b mac)).detections⟩
         s.beacons⟩ := by
  simp [ingestBeacon, hm, he]

theorem ingestBeacon_devices (s : PluginData) (did dname : String) (now : Int)
    (b : ReportBeacon) : (ingestBeacon s did dname now b).devices = s.devices := by
  rcases hm : b.mac with _ | mac
  · simp [ingestBeacon, hm]
  · by_cases he : mac = ""
    · simp [ingestBeacon, hm, he]
    · rw [ingestBeacon_eq s did dname now hm he]

theorem foldl_ingest_devices (did dname : String) (now : Int)
    (bs : List ReportBeacon) (s : PluginData) :
    (bs.foldl (fun s b => ingestBeacon s did dname now b) s).devices = s.devices := by
  induction bs generalizing s with
  | nil => rfl
  | cons b rest ih => rw [List.foldl_cons, ih, ingestBeacon_devices]

theorem beaconBase_nodup {s : PluginData} (now : Int) (b : ReportBeacon) (mac : String)
    (h : DetectionsUnique s) : (akeys (beaconBase s now b mac).detections).Nodup := by
  rcases hl : alookup mac s.beacons with _ | r
  · simp [beaconBase, hl, akeys]
  · have : beaconBase s now b mac = r := by simp [beaconBase, hl]
    rw [this]
    exact h.2 (mac, r) (alookup_mem hl)

theorem ingestBeacon_unique {s : PluginData} (did dname : String) (now : Int)
    (b : ReportBeacon) (h : DetectionsUnique s) :
    DetectionsUnique (ingestBeacon s did dname now b) := by
  rcases hm : b.mac with _ | mac
  · simpa [ingestBeacon, hm] using h
  · by_cases he : mac = ""
    · simpa [ingestBeacon, hm, he] using h
    · rw [ingestBeacon_eq s did dname now hm he]
      constructor
      · exact nodup_akeys_upsert _ h.1
      · intro p hp
        rcases mem_upsert hp with hp | hp
        · rw [hp]
          refine nodup_akeys_upsert _ ?_
          rw [beaconNamed_detections]
          exact beaconBase_nodup now b mac h
        · exact h.2 p hp

theorem foldl_ingest_unique (did dname : String) (now : Int)
    (bs : List ReportBeacon) {s : PluginData} (h : DetectionsUnique s) :
    DetectionsUnique (bs.foldl (fun s b => ingestBeacon s did dname now b) s) := by
  induction bs generalizing s with
  | nil => exact h
  | cons b rest ih => rw [List.foldl_cons]; exact ih (ingestBeacon_unique did dname now b h)

theorem handleBLEData_rejected {e : Report} (d : PluginData) (now : Int)
    (h : e.device_id = none ∨ e.device_id = some "" ∨ e.beacons = []) :
    handleBLEData d e now = d := by
  rcases hdid : e.device_id with _ | did
  · simp [handleBLEData, hdid]
  · rcases h with h | h | h
    · rw [h] at hdid; cases hdid
    · rw [h] at hdid
      cases hdid
      simp [handleBLEData, h]
    · simp [handleBLEData, hdid, h]

theorem handleBLEData_eq {e : Report} {did : String} (d : PluginData) (now : Int)
    (hdid : e.device_id = some did) (hne : ¬did = "") (hbs : ¬e.beacons = []) :
    handleBLEData d e now =
      e.beacons.foldl (fun s b => ingestBeacon s did (jsOrS e.device_name did) now b)
        ⟨upsert did
           ⟨jsOrS e.device_name did, jsOrS e.device_type "ESP32", now,
            jsOrI e.batch 1, jsOrI e.total_batches 1⟩ d.devices,
         d.beacons⟩ := by
  simp [handleBLEData, hdid, hne, hbs]

theorem handleBLEData_unique {d : PluginData} (e : Report) (now : Int)
    (h : DetectionsUnique d) : DetectionsUnique (handleBLEData d e now) := by
  rcases hdid : e.device_id with _ | did
  · rw [handleBLEData_rejected d now (Or.inl hdid)]; exact h
  · by_cases hne : did = ""
    · rw [handleBLEData_rejected d now (Or.inr (Or.inl (hne ▸ hdid)))]; exact h
    · by_cases hbs : e.beacons = []
      · rw [handleBLEData_rejected d now (Or.inr (Or.inr hbs))]; exact h
      · rw [handleBLEData_eq d now hdid hne hbs]
        exact foldl_ingest_unique _ _ now e.beacons ⟨h.1, h.2⟩

theorem ingestBeacon_pairFresh_self {b : ReportBeacon} {mac : String}
    (s : PluginData) (did dname : String) (now : Int)
    (hm : b.mac = some mac) (he : ¬mac = "") :
    PairFresh did now (ingestBeacon s did dname now b).beacons mac := by
  rw [ingestBeacon_eq s did dname now hm he]
  exact ⟨_, _, alookup_upsert_self _ _ _, alookup_upsert_self _ _ _, rfl, rfl⟩

theorem ingestBeacon_pairFresh {s : PluginData} {did : String} {now : Int}
    {mac : String} (dname : String) (b : ReportBeacon)
    (hp : PairFresh did now s.beacons mac) :
    PairFresh did now (ingestBeacon s did dname now b).beacons mac := by
  rcases hm : b.mac with _ | mac'
  · simpa [ingestBeacon, hm] using hp
  · by_cases he : mac' = ""
    · simpa [ingestBeacon, hm, he] using hp
    · by_cases hmm : mac' = mac
      · subst hmm
        exact ingestBeacon_pairFresh_self s did dname now hm he
      · rw [ingestBeacon_eq s did dname now hm he]
        obtain ⟨r, det, h1, h2, h3, h4⟩ := hp
        exact ⟨r, det, by rw [alookup_upsert_ne _ _ (fun hh => hmm hh.symm)]; exact h1,
          h2, h3, h4⟩

theorem foldl_pairFresh {did : String} {now : Int} {mac : String} (dname : String)
    (bs : List ReportBeacon) {s : PluginData} (hp : PairFresh did now s.beacons mac) :
    PairFresh did now ((bs.foldl (fun s b => ingestBeacon s did dname now b) s)).beacons mac := by
  induction bs generalizing s with
  | nil => exact hp
  | cons b rest ih =>
    rw [List.foldl_cons]
    exact ih (ingestBeacon_pairFresh dname b hp)

theorem foldl_pairFresh_mem {did : String} {now : Int} {mac : String}
    {b : ReportBeacon} (dname : String) (bs : List ReportBeacon) (s : PluginData)
    (hb : b ∈ bs) (hm : b.mac = some mac) (he : ¬mac = "") :
    PairFresh did now ((bs.foldl (fun s b => ingestBeacon s did dname now b) s)).beacons mac := by
  induction bs generalizing s with
  | nil => cases hb
  | cons x rest ih =>
    rcases List.mem_cons.mp hb with hbx | hbx
    · subst hbx
      rw [List.foldl_cons]
      exact foldl_pairFresh dname rest (ingestBeacon_pairFresh_self s did dname now hm he)
    · rw [List.foldl_cons]
      exact ih _ hbx

theorem handle_pairFresh {e : Report} {did : String} {b : ReportBeacon} {mac : String}
    (d : PluginData) (now : Int) (hdid : e.device_id = some did) (hne : ¬did = "")
    (hb : b ∈ e.beacons) (hm : b.mac = some mac) (he : ¬mac = "") :
    PairFresh did now (handleBLEData d e now).beacons mac := by
  have hbs : ¬e.beacons = [] := by
    intro hh; rw [hh] at hb; cases hb
  rw [handleBLEData_eq d now hdid hne hbs]
  exact foldl_pairFresh_mem _ e.beacons _ hb hm he

theorem pairPresent_of_pairFresh {did : String} {ts : Int}
    {bs : List (String × PBeacon)} {mac : String}
    (h : PairFresh did ts bs mac) : PairPresent did bs mac := by
  obtain ⟨r, det, h1, h2, _, _⟩ := h
  exact ⟨r, h1, mem_akeys_of_alookup h2⟩

theorem detShape_upsert {bs : List (String × PBeacon)} {mac : String} {r : PBeacon}
    (v : PBeacon) (hl : alookup mac bs = some r)
    (hk : akeys v.detections = akeys r.detections) :
    detShape (upsert mac v bs) = detShape bs := by
  induction bs with
  | nil => simp [alookup] at hl
  | cons p rest ih =>
    obtain ⟨k, b0⟩ := p
    by_cases hkm : k = mac
    · subst hkm
      rw [alookup_cons_eq, Option.some.injEq] at hl
      rw [upsert_cons_eq, detShape_cons, detShape_cons]
      show (k, akeys v.detections) :: detShape rest = (k, akeys b0.detections) :: detShape rest
      rw [hl, hk]
    · rw [alookup_cons_ne hkm] at hl
      rw [upsert_cons_ne hkm, detShape_cons, detShape_cons, ih hl]

theorem ingestBeacon_pairPresent {s : PluginData} {did : String} {mac : String}
    (dname : String) (now : Int) (b : ReportBeacon)
    (hp : PairPresent did s.beacons mac) :
    PairPresent did (ingestBeacon s did dname now b).beacons mac := by
  rcases hm : b.mac with _ | mac'
  · simpa [ingestBeacon, hm] using hp
  · by_cases he : mac' = ""
    · simpa [ingestBeacon, hm, he] using hp
    · by_cases hmm : mac' = mac
      · subst hmm
        exact pairPresent_of_pairFresh (ingestBeacon_pairFresh_self s did dname now hm he)
      · rw [ingestBeacon_eq s did dname now hm he]
        obtain ⟨r, h1, h2⟩ := hp
        exact ⟨r, by rw [alookup_upsert_ne _ _ (fun hh => hmm hh.symm)]; exact h1, h2⟩

theorem ingestBeacon_shape {s : PluginData} {did : String} (dname : String)
    (now : Int) (b : ReportBeacon)
    (hp : ∀ mac, b.mac = some mac → ¬mac = "" → PairPresent did s.beacons mac) :
    detShape (ingestBeacon s did dname now b).beacons = detShape s.beacons := by
  rcases hm : b.mac with _ | mac
  · simp [ingestBeacon, hm]
  · by_cases he : mac = ""
    · simp [ingestBeacon, hm, he]
    · rw [ingestBeacon_eq s did dname now hm he]
      obtain ⟨r, hl, hmem⟩ := hp mac hm he
      have hbase : beaconBase s now b mac = r := by simp [beaconBase, hl]
      refine detShape_upsert _ hl ?_
      show akeys (upsert did _ (beaconNamed b (beaconBase s now b mac)).detections) = _
      rw [beaconNamed_detections, hbase]
      exact akeys_upsert_mem _ hmem

theorem foldl_shape {did : String} (dname : String) (now : Int)
    (bs : List ReportBeacon) {s : PluginData}
    (hp : ∀ b ∈ bs, ∀ mac, b.mac = some mac → ¬mac = "" → PairPresent did s.beacons mac) :
    detShape ((bs.foldl (fun s b => ingestBeacon s did dname now b) s)).beacons =
      detShape s.beacons := by
  induction bs generalizing s with
  | nil => rfl
  | cons x rest ih =>
    rw [List.foldl_cons]
    rw [ih ?_, ingestBeacon_shape dname now x (fun mac hm he => hp x (List.mem_cons_self x rest) mac hm he)]
    intro b hb mac hm he
    exact ingestBeacon_pairPresent dname now x (hp b (List.mem_cons_of_mem x hb) mac hm he)

end Plugin

/-! ## Claim theorems -/

/-- C2: evaluating the code at the failing input: the date string
"a/b/c 1:2:3" has no numeric timestamp and its secondary string fails to
parse (the time value is NaN), yet isDetectionStale returns false, so the
staleness evaluator fails open on this malformed input instead of
classifying it stale; getValidReceivers on the other hand does exclude
the detection. -/
theorem c2_timestamp_parse_failopen :
    Utils.parseDetectionTime (some badDetection) = some JSNum.nan ∧
    Utils.isDetectionStale (some badDetection) 1000000 15000 = false ∧
    Utils.getValidReceivers (some ⟨none, none, [("r1", badDetection)]⟩) 1000000 15000 = [] := by
  refine ⟨rfl, rfl, rfl⟩

theorem findBeaconGo_eq (bs : List (String × Utils.Beacon)) (q : String) :
    Utils.findBeaconGo bs q =
      (bs.find? (fun p => p.2.name == some q || p.1 == q)).map (fun p => (p.2, p.1)) := by
  induction bs with
  | nil => rfl
  | cons p rest ih =>
    obtain ⟨mac, b⟩ := p
    rcases hc : (b.name == some q || mac == q) with _ | _
    · rw [Utils.findBeaconGo, if_neg (by simp [hc]), List.find?_cons_of_neg _ (by simp [hc]), ih]
    · rw [Utils.findBeaconGo, if_pos (by simp [hc]), List.find?_cons_of_pos _ (by simp [hc])]
      rfl

/-- C4 counterexample: in c4data the first-iterated object "AA" has name
"BB" while the later object has address "BB"; findBeacon "BB" returns the
earlier name match (mac "AA"), not the address match, refuting the claim
that the address match wins over an earlier-iterated name match. -/
theorem c4_counterexample :
    (Utils.findBeacon c4data "BB").map Prod.snd = some "AA" ∧ ¬("AA" = "BB") := by
  refine ⟨rfl, by decide⟩

/-- C4 amended: findObject performs one linear scan in Registry iteration
order testing, for each entry, name equality or address equality together,
and returns the first entry matching either (so an earlier-iterated name
match wins over a later address match); it returns the NotFound signal
when nothing matches. -/
theorem c4_amended :
    ∀ (d : Utils.UData) (q : String),
      Utils.findBeacon d q =
        (d.beacons.find? (fun p => p.2.name == some q || p.1 == q)).map
          (fun p => (p.2, p.1)) := by
  intro d q
  exact findBeaconGo_eq d.beacons q

theorem truthyJ_ensureField_self (k : String) (fs : List (String × Plugin.JVal)) :
    Plugin.truthyJ (alookup k (Plugin.ensureField k fs)) = true := by
  by_cases h : Plugin.truthyJ (alookup k fs) = true
  · simp [Plugin.ensureField, h]
  · rw [Plugin.ensureField, if_neg h, alookup_upsert_self]
    rfl

theorem truthyJ_ensureField_other {k k' : String} (h : k' ≠ k)
    (fs : List (String × Plugin.JVal)) :
    Plugin.truthyJ (alookup k' (Plugin.ensureField k fs)) = Plugin.truthyJ (alookup k' fs) := by
  by_cases hh : Plugin.truthyJ (alookup k fs) = true
  · simp [Plugin.ensureField, hh]
  · rw [Plugin.ensureField, if_neg hh, alookup_upsert_ne _ _ h]

/-- C9: a missing or syntactically unparsable persisted document (the
fallible read-and-parse step is embedded as the error case) loads as the
empty Registry; moreover every load result, error or not, is an object
whose devices and beacons properties are truthy, and loading is a total
function, so no input raises an error. -/
theorem c9_load_failure_empty :
    (∀ msg : String, Plugin.loadData (.error msg) = Plugin.emptyRegistryJ) ∧
    (∀ doc : Except String Plugin.JVal, ∃ fs, Plugin.loadData doc = .obj fs ∧
       Plugin.truthyJ (alookup "devices" fs) = true ∧ Plugin.truthyJ (alookup "beacons" fs) = true) := by
  constructor
  · intro msg; rfl
  · intro doc
    rcases doc with msg | v
    · exact ⟨_, rfl, rfl, rfl⟩
    · show ∃ fs, (match Plugin.decodeJVal v with
        | .obj fields => Plugin.JVal.obj (Plugin.ensureField "beacons" (Plugin.ensureField "devices" fields))
        | _ => Plugin.emptyRegistryJ) = .obj fs ∧ _
      rcases Plugin.decodeJVal v with s | n | b | _ | xs | fields
      · exact ⟨_, rfl, rfl, rfl⟩
      · exact ⟨_, rfl, rfl, rfl⟩
      · exact ⟨_, rfl, rfl, rfl⟩
      · exact ⟨_, rfl, rfl, rfl⟩
      · exact ⟨_, rfl, rfl, rfl⟩
      · refine ⟨_, rfl, ?_, ?_⟩
        · rw [truthyJ_ensureField_other (by decide) _, truthyJ_ensureField_self]
        · rw [truthyJ_ensureField_self]

/-- C1: starting from the empty registry, any sequence of ingested reports
leaves the beacons map and every object's Detection mapping free of
duplicate receiver keys (at most one Detection per (object, receiver)
pair); replaying any report a second time at any later moment leaves the
per-object detection-key shape of the registry unchanged (no Detection is
added or removed for any pair); and every pair affected by an ingest at
time t holds a detection whose timestamps are refreshed to t. -/
theorem c1_detection_uniqueness_and_idempotence :
    (∀ rs : List (Plugin.Report × Int),
       Plugin.DetectionsUnique
         (rs.foldl (fun s p => Plugin.handleBLEData s p.1 p.2) Plugin.emptyData)) ∧
    (∀ (d : Plugin.PluginData) (e : Plugin.Report) (t₁ t₂ : Int),
       Plugin.detShape (Plugin.handleBLEData (Plugin.handleBLEData d e t₁) e t₂).beacons =
         Plugin.detShape (Plugin.handleBLEData d e t₁).beacons) ∧
    (∀ (d : Plugin.PluginData) (e : Plugin.Report) (t : Int) (did : String),
       e.device_id = some did → ¬did = "" →
       ∀ b ∈ e.beacons, ∀ mac, b.mac = some mac → ¬mac = "" →
         Plugin.PairFresh did t (Plugin.handleBLEData d e t).beacons mac) := by
  refine ⟨?_, ?_, ?_⟩
  · have hfold : ∀ (rs : List (Plugin.Report × Int)) (s : Plugin.PluginData),
        Plugin.DetectionsUnique s →
        Plugin.DetectionsUnique (rs.foldl (fun s p => Plugin.handleBLEData s p.1 p.2) s) := by
      intro rs
      induction rs with
      | nil => intro s hs; exact hs
      | cons p rest ih =>
        intro s hs
        rw [List.foldl_cons]
        exact ih _ (Plugin.handleBLEData_unique p.1 p.2 hs)
    intro rs
    exact hfold rs Plugin.emptyData Plugin.detectionsUnique_empty
  · intro d e t₁ t₂
    rcases hdid : e.device_id with _ | did
    · rw [Plugin.handleBLEData_rejected _ t₂ (Or.inl hdid)]
    · by_cases hne : did = ""
      · rw [Plugin.handleBLEData_rejected _ t₂ (Or.inr (Or.inl (hne ▸ hdid)))]
      · by_cases hbs : e.beacons = []
        · rw [Plugin.handleBLEData_rejected _ t₂ (Or.inr (Or.inr hbs))]
        · rw [Plugin.handleBLEData_eq _ t₂ hdid hne hbs]
          refine (Plugin.foldl_shape _ t₂ e.beacons ?_).trans rfl
          intro b hb mac hm he
          exact Plugin.pairPresent_of_pairFresh
            (Plugin.handle_pairFresh d t₁ hdid hne hb hm he)
  · intro d e t did hdid hne b hb mac hm he
    exact Plugin.handle_pairFresh d t hdid hne hb hm he

/-- C1 witness: the third conjunct applied to a concrete report. -/
theorem c1_witness :
    Plugin.PairFresh "R1" 7 (Plugin.handleBLEData Plugin.emptyData c1report 7).beacons "M" :=
  c1_detection_uniqueness_and_idempotence.2.2 Plugin.emptyData c1report 7 "R1" rfl
    (by decide) ⟨some "M", some "B1", .num (-50), some true⟩ (by decide) "M" rfl (by decide)

/-- C3 counterexample: a report with receiver identity "R1" and an empty
observed-object list is rejected whole — the registry is unchanged and no
Receiver record for "R1" is upserted — refuting the claim that only a
missing receiver identity causes rejection. -/
theorem c3_counterexample :
    Plugin.handleBLEData Plugin.emptyData c3report 5 = Plugin.emptyData ∧
    alookup "R1" (Plugin.handleBLEData Plugin.emptyData c3report 5).devices = none := by
  refine ⟨rfl, rfl⟩

/-- C3 amended: a report carrying a present (truthy) receiver identity AND
a nonempty observed-object list upserts the Receiver record (name, type,
last-report timestamp now, batch fields); a report whose receiver identity
is missing or empty, or whose observed-object list is empty, is rejected
whole without mutation. -/
theorem c3_amended :
    (∀ (data : Plugin.PluginData) (e : Plugin.Report) (now : Int) (did : String),
       e.device_id = some did → ¬did = "" → ¬e.beacons = [] →
       alookup did (Plugin.handleBLEData data e now).devices =
         some ⟨jsOrS e.device_name did, jsOrS e.device_type "ESP32", now,
               jsOrI e.batch 1, jsOrI e.total_batches 1⟩) ∧
    (∀ (data : Plugin.PluginData) (e : Plugin.Report) (now : Int),
       e.device_id = none ∨ e.device_id = some "" ∨ e.beacons = [] →
       Plugin.handleBLEData data e now = data) := by
  constructor
  · intro data e now did hdid hne hbs
    rw [Plugin.handleBLEData_eq data now hdid hne hbs, Plugin.foldl_ingest_devices]
    exact alookup_upsert_self _ _ _
  · intro data e now h
    exact Plugin.handleBLEData_rejected data now h

/-- C3 witness: the amended upsert conjunct applied to a concrete report
with one observed object. -/
theorem c3_witness :
    alookup "R1" (Plugin.handleBLEData Plugin.emptyData c3reportB 7).devices =
      some ⟨"R1", "ESP32", 7, 1, 1⟩ :=
  c3_amended.1 Plugin.emptyData c3reportB 7 "R1" rfl (by decide) (by decide)

/-- C5 counterexample: ingesting a report whose object carries the
structured signal strength with neither a truthy average nor a truthy
current reading stores the structured object itself as the detection's
rssi — not a scalar number — refuting the claim that the stored value is
always a single scalar. -/
theorem c5_counterexample :
    ((alookup "M" (Plugin.handleBLEData Plugin.emptyData c5report 5).beacons).bind
        (fun r => alookup "R" r.detections)).map (fun det => det.rssi) =
      some (Plugin.RssiStored.obj none none) ∧
    ((alookup "M" (Plugin.handleBLEData Plugin.emptyData c5report 5).beacons).bind
        (fun r => alookup "R" r.detections)).map (fun det => det.rssi.isScalarB) =
      some false := by
  refine ⟨rfl, rfl⟩

/-- C5 amended: normalization prefers a truthy (nonzero) average reading,
falls back to a truthy current reading, and otherwise stores the raw value
as-is — which for a structured value with no truthy reading is the
structured object itself, so the stored strength is a scalar only in the
first three cases; ingestion always stores exactly the normalized value in
the Detection. -/
theorem c5_amended :
    (∀ n : Int, Plugin.normalizeRssi (.num n) = .num n) ∧
    (∀ (a : Int) (cur : Option Int), ¬a = 0 →
       Plugin.normalizeRssi (.structured (some a) cur) = .num a) ∧
    (∀ (avg : Option Int) (c : Int), truthyI avg = false → ¬c = 0 →
       Plugin.normalizeRssi (.structured avg (some c)) = .num c) ∧
    (∀ (avg cur : Option Int), truthyI avg = false → truthyI cur = false →
       Plugin.normalizeRssi (.structured avg cur) = .obj avg cur) ∧
    (∀ (s : Plugin.PluginData) (did dname : String) (now : Int)
       (b : Plugin.ReportBeacon) (mac : String), b.mac = some mac → ¬mac = "" →
       ∃ r det, alookup mac (Plugin.ingestBeacon s did dname now b).beacons = some r ∧
         alookup did r.detections = some det ∧ det.rssi = Plugin.normalizeRssi b.rssi) := by
  refine ⟨?_, ?_, ?_, ?_, ?_⟩
  · intro n; rfl
  · intro a cur ha
    have h1 : truthyI (some a) = true := by simp [truthyI, ha]
    simp [Plugin.normalizeRssi, h1]
  · intro avg c havg hc
    have h2 : truthyI (some c) = true := by simp [truthyI, hc]
    simp [Plugin.normalizeRssi, havg, h2]
  · intro avg cur havg hcur
    simp [Plugin.normalizeRssi, havg, hcur]
  · intro s did dname now b mac hm he
    rw [Plugin.ingestBeacon_eq s did dname now hm he]
    exact ⟨_, _, alookup_upsert_self _ _ _, alookup_upsert_self _ _ _, rfl⟩

/-- C5 witness: the fallback-to-current conjunct and the stored-value
conjunct applied at concrete inputs. -/
theorem c5_witness :
    Plugin.normalizeRssi (.structured (some 0) (some (-60))) = .num (-60) ∧
    ∃ r det,
      alookup "M" (Plugin.ingestBeacon Plugin.emptyData "R" "R" 5
        ⟨some "M", none, .structured none none, some true⟩).beacons = some r ∧
      alookup "R" r.detections = some det ∧
      det.rssi = Plugin.normalizeRssi (.structured none none) :=
  ⟨c5_amended.2.2.1 (some 0) (-60) (by decide) (by decide),
   c5_amended.2.2.2.2 Plugin.emptyData "R" "R" 5
     ⟨some "M", none, .structured none none, some true⟩ "M" rfl (by decide)⟩

/-- C6: for a detection whose timestamp resolves to t and any threshold,
an age exactly equal to the threshold classifies fresh (isDetectionStale
is false and the detection appears in the valid-receiver result), while an
age of threshold plus one classifies stale (isDetectionStale is true and
the detection is excluded). -/
theorem c6_staleness_boundary :
    ∀ (d : Utils.Detection) (t th : Int) (nm : Option String) (fs : Option Int)
      (did : String),
      Utils.parseDetectionTime (some d) = some (.num t) →
      Utils.isDetectionStale (some d) (t + th) th = false ∧
      Utils.isDetectionStale (some d) (t + th + 1) th = true ∧
      (Utils.getValidReceivers (some ⟨nm, fs, [(did, d)]⟩) (t + th) th).map
        Utils.RecvView.deviceId = [did] ∧
      Utils.getValidReceivers (some ⟨nm, fs, [(did, d)]⟩) (t + th + 1) th = [] := by
  intro d t th nm fs did hparse
  have h1 : t + th - t = th := by omega
  have h2 : t + th + 1 - t = th + 1 := by omega
  refine ⟨?_, ?_, ?_, ?_⟩
  · simp [Utils.isDetectionStale, hparse, jsSub, jsGtB, h1]
  · simp only [Utils.isDetectionStale, hparse, jsSub, jsGtB, h2, decide_eq_true_eq]
    omega
  · have hcond : t + th - t ≤ th := by omega
    simp [Utils.getValidReceivers, Utils.freshDetections, Utils.freshEntry, hparse,
      hcond, Utils.sortDescGo, Utils.insertDesc]
  · have hcond : ¬(t + th + 1 - t ≤ th) := by omega
    simp [Utils.getValidReceivers, Utils.freshDetections, Utils.freshEntry, hparse,
      hcond, Utils.sortDescGo]

/-- C6 witness: the boundary conjuncts applied at a concrete detection
with timestamp 1000 and threshold 15000. -/
theorem c6_witness :
    Utils.isDetectionStale (some c6det) 16000 15000 = false ∧
    Utils.isDetectionStale (some c6det) 16001 15000 = true :=
  ⟨(c6_staleness_boundary c6det 1000 15000 none none "r" (by decide)).1,
   (c6_staleness_boundary c6det 1000 15000 none none "r" (by decide)).2.1⟩

/-- C7: the ranked-receivers result is a permutation of exactly the rows
built from the detections passing the freshness filter; it is sorted in
descending signal order; rows of any fixed signal strength keep their
prior (iteration) order; and when no detection passes the filter the
result is the empty sequence. -/
theorem c7_ranked_receivers :
    ∀ (ob : Option Utils.Beacon) (now th : Int),
      (Utils.getValidReceivers ob now th).Perm (Utils.freshDetections ob now th) ∧
      (Utils.getValidReceivers ob now th).Pairwise Utils.Rge ∧
      (∀ r : Int, (Utils.getValidReceivers ob now th).filter (fun v => v.rssi == r) =
         (Utils.freshDetections ob now th).filter (fun v => v.rssi == r)) ∧
      (Utils.freshDetections ob now th = [] → Utils.getValidReceivers ob now th = []) := by
  intro ob now th
  refine ⟨?_, ?_, ?_, ?_⟩
  · simpa using Utils.perm_sortDescGo (Utils.freshDetections ob now th) []
  · exact Utils.pairwise_sortDescGo _ List.Pairwise.nil
  · intro r
    simpa using Utils.filter_sortDescGo (Utils.freshDetections ob now th) r
      List.Pairwise.nil
  · intro h
    rw [Utils.getValidReceivers, h]
    rfl

/-- C7 witness: the empty-result conjunct applied to the null object. -/
theorem c7_witness : Utils.getValidReceivers none 0 0 = [] :=
  (c7_ranked_receivers none 0 0).2.2.2 rfl

/-- C8: after one Reaper sweep, a receiver survives exactly when its
last-report age is within the retention threshold; every surviving
detection has age within the threshold (all older ones were removed); an
object holding a detection strictly younger than the threshold is kept
(its pruned record is in the result); and no surviving object has zero
detections. -/
theorem c8_reaper :
    ∀ (data : Plugin.PluginData) (now : Int),
      (∀ p : String × Plugin.DeviceRec,
         p ∈ (Plugin.autoClearOldData data now).devices ↔
           p ∈ data.devices ∧ now - p.2.update ≤ Plugin.halfHour) ∧
      (∀ (mac : String) (b' : Plugin.PBeacon),
         (mac, b') ∈ (Plugin.autoClearOldData data now).beacons →
         ∀ q ∈ b'.detections, now - q.2.update_time ≤ Plugin.halfHour) ∧
      (∀ (mac : String) (b : Plugin.PBeacon), (mac, b) ∈ data.beacons →
         (∃ q ∈ b.detections, now - q.2.update_time < Plugin.halfHour) →
         (mac, Plugin.pruneBeacon now b) ∈ (Plugin.autoClearOldData data now).beacons) ∧
      (∀ (mac : String) (b' : Plugin.PBeacon),
         (mac, b') ∈ (Plugin.autoClearOldData data now).beacons →
         ¬b'.detections = []) := by
  intro data now
  refine ⟨?_, ?_, ?_, ?_⟩
  · intro p
    simp [Plugin.autoClearOldData, List.mem_filter]
  · intro mac b' hb q hq
    obtain ⟨hmem, hpred⟩ := List.mem_filter.mp hb
    obtain ⟨p0, hp0, heq⟩ := List.mem_map.mp hmem
    have hb'eq : b' = Plugin.pruneBeacon now p0.2 := (Prod.mk.injEq _ _ _ _ ▸ heq).2.symm
    rw [hb'eq] at hq
    have := (List.mem_filter.mp hq).2
    simpa using this
  · intro mac b hbmem hyoung
    obtain ⟨q, hq, hqy⟩ := hyoung
    refine List.mem_filter.mpr ⟨?_, ?_⟩
    · exact List.mem_map.mpr ⟨(mac, b), hbmem, rfl⟩
    · have hqkeep : q ∈ (Plugin.pruneBeacon now b).detections :=
        List.mem_filter.mpr ⟨hq, by simpa using le_of_lt hqy⟩
      simpa [List.isEmpty_iff] using List.ne_nil_of_mem hqkeep
  · intro mac b' hb
    have hpred := (List.mem_filter.mp hb).2
    simpa [List.isEmpty_iff] using hpred

/-- C8 witness: the keep-young-object conjunct applied to a concrete
registry at a concrete sweep time. -/
theorem c8_witness :
    ("M1", Plugin.pruneBeacon 2000000 c8beacon) ∈
      (Plugin.autoClearOldData c8data 2000000).beacons :=
  (c8_reaper c8data 2000000).2.2.1 "M1" c8beacon (by decide)
    ⟨("R2", ⟨"n", none, .num 2, 100, 2000000⟩), by decide, by decide⟩

/-- C10: a detection passing the freshness filter whose stored rssi field
is absent is still returned, with signal strength substituted by -100 and
liveness defaulted through `online || false`; its resolved timestamp is
carried unchanged. -/
theorem c10_missing_rssi_default :
    ∀ (b : Utils.Beacon) (did : String) (d : Utils.Detection) (now th t : Int),
      (did, d) ∈ b.detections →
      Utils.parseDetectionTime (some d) = some (.num t) →
      now - t ≤ th → d.rssi = none →
      ∃ rv, rv ∈ Utils.getValidReceivers (some b) now th ∧
        rv.deviceId = did ∧ rv.rssi = -100 ∧ rv.online = d.online.getD false ∧
        rv.lastUpdateTime = t := by
  intro b did d now th t hmem hparse hage hrssi
  refine ⟨⟨did, (jsOrOptS d.receiver_name d.receiver).map decodeUnicode, -100,
    d.online.getD false, t⟩, ?_, rfl, rfl, rfl, rfl⟩
  have hentry : Utils.freshEntry now th (did, d) =
      some ⟨did, (jsOrOptS d.receiver_name d.receiver).map decodeUnicode, -100,
        d.online.getD false, t⟩ := by
    simp [Utils.freshEntry, hparse, hage, hrssi]
  have hfresh : (⟨did, (jsOrOptS d.receiver_name d.receiver).map decodeUnicode, -100,
      d.online.getD false, t⟩ : Utils.RecvView) ∈ Utils.freshDetections (some b) now th :=
    List.mem_filterMap.mpr ⟨(did, d), hmem, hentry⟩
  exact ((Utils.perm_sortDescGo _ []).mem_iff).mpr (by simpa using hfresh)

/-- C10 witness: the theorem applied to an object with one detection
lacking both the rssi field and the liveness flag. -/
theorem c10_witness :
    ∃ rv, rv ∈ Utils.getValidReceivers (some c10beacon) 1000 15000 ∧
      rv.deviceId = "r9" ∧ rv.rssi = -100 ∧ rv.online = false ∧
      rv.lastUpdateTime = 500 :=
  c10_missing_rssi_default c10beacon "r9" ⟨some 500, none, none, none, none, none⟩
    1000 15000 500 (by decide) (by decide) (by decide) rfl

end IMSYAU
